import Mathlib

/-!
Verification of the core of `compare_json_files.py` from the bkcenters
repository: the canonicalizer `format_json`, the indexer
`extract_centers_by_branch_code`, and the differ `compare_centers`.

The shallow embedding models a parsed JSON value (an arbitrary Python
value as produced by `json.load`) as the inductive type `Doc`.  Numbers
are modelled by `Int`: the claims under verification never involve
floating-point values, and integer JSON numbers parse to Python `int`.
Python's `==` on such values (dictionaries compared order-insensitively,
lists element-wise) is modelled by `pyEq`; Python's `str`/`repr` display
of such values by `pyStr`/`pyRepr`; `json.dumps` by `jsonDumps`.
-/

/-- Document: a parsed JSON value — object (insertion-ordered list of
string-keyed entries, as a Python `dict`), sequence, string, number,
boolean or null. -/
inductive Doc where
  | obj : List (String × Doc) → Doc
  | arr : List Doc → Doc
  | str : String → Doc
  | num : Int → Doc
  | bool : Bool → Doc
  | null : Doc
deriving Repr

mutual

/-- Structural (constructor-wise) equality test on `Doc`; used only to
obtain a `DecidableEq Doc` instance, not to model Python `==`. -/
def docBeq : Doc → Doc → Bool
  | .obj o, .obj n => fieldsBeq o n
  | .arr a, .arr b => elemsBeq a b
  | .str a, .str b => a == b
  | .num a, .num b => a == b
  | .bool a, .bool b => a == b
  | .null, .null => true
  | _, _ => false

/-- Structural equality on entry lists. -/
def fieldsBeq : List (String × Doc) → List (String × Doc) → Bool
  | [], [] => true
  | (k, a) :: rest, (k2, b) :: rest2 => k == k2 && docBeq a b && fieldsBeq rest rest2
  | _, _ => false

/-- Structural equality on element lists. -/
def elemsBeq : List Doc → List Doc → Bool
  | [], [] => true
  | x :: xs, y :: ys => docBeq x y && elemsBeq xs ys
  | _, _ => false

end

theorem docBeq_iff : ∀ a b, docBeq a b = true ↔ a = b := by
  apply docBeq.induct
    (motive_2 := fun a b => elemsBeq a b = true ↔ a = b)
    (motive_3 := fun o n => fieldsBeq o n = true ↔ o = n)
  · intro o n ih
    simp [docBeq, ih]
  · intro a b ih
    simp [docBeq, ih]
  · intro a b
    simp [docBeq]
  · intro a b
    simp [docBeq]
  · intro a b
    simp [docBeq]
  · simp [docBeq]
  · intro t x h1 h2 h3 h4 h5 h6
    cases t <;> cases x <;>
      first
        | exact (h1 _ _ rfl rfl).elim
        | exact (h2 _ _ rfl rfl).elim
        | exact (h3 _ _ rfl rfl).elim
        | exact (h4 _ _ rfl rfl).elim
        | exact (h5 _ _ rfl rfl).elim
        | exact (h6 rfl rfl).elim
        | simp [docBeq]
  · simp [fieldsBeq]
  · intro k a rest k2 b rest2 ih1 ih2
    simp only [fieldsBeq, Bool.and_eq_true, beq_iff_eq, ih1, ih2, List.cons.injEq,
      Prod.mk.injEq]
  · intro t x h1 h2
    cases t with
    | nil =>
      cases x with
      | nil => exact (h1 rfl rfl).elim
      | cons q m => simp [fieldsBeq]
    | cons p l =>
      cases x with
      | nil => simp [fieldsBeq]
      | cons q m => exact (h2 p.1 p.2 l q.1 q.2 m rfl rfl).elim
  · simp [elemsBeq]
  · intro x xs y ys ih1 ih2
    simp [elemsBeq, ih1, ih2]
  · intro t x h1 h2
    cases t with
    | nil =>
      cases x with
      | nil => exact (h1 rfl rfl).elim
      | cons y ys => simp [elemsBeq]
    | cons a as =>
      cases x with
      | nil => simp [elemsBeq]
      | cons y ys => exact (h2 a as y ys rfl rfl).elim

instance : DecidableEq Doc := fun a b => decidable_of_iff (docBeq a b = true) (docBeq_iff a b)

mutual

/-- Python `==` on parsed JSON values: dictionaries are equal when they
have the same length and every key of the left one maps to an equal
value in the right one (hence order-insensitive), lists are compared
element-wise, scalars directly; values of different kinds are unequal. -/
def pyEq : Doc → Doc → Bool
  | .obj o, .obj n => o.length == n.length && pyEqFields o n
  | .arr a, .arr b => a.length == b.length && pyEqElems a b
  | .str a, .str b => a == b
  | .num a, .num b => a == b
  | .bool a, .bool b => a == b
  | .null, .null => true
  | _, _ => false

/-- Python dict comparison step: every key of the first dict is present
in the second with a `pyEq`-equal value. -/
def pyEqFields : List (String × Doc) → List (String × Doc) → Bool
  | [], _ => true
  | (k, a) :: rest, n =>
    (match n.lookup k with
     | some b => pyEq a b
     | none => false) && pyEqFields rest n

/-- Python list comparison step: element-wise `pyEq` (lengths are
checked by the caller). -/
def pyEqElems : List Doc → List Doc → Bool
  | [], _ => true
  | _ :: _, [] => true
  | x :: xs, y :: ys => pyEq x y && pyEqElems xs ys

end

example : pyEq (.obj [("a", .num 1), ("b", .null)]) (.obj [("b", .null), ("a", .num 1)]) = true := by
  decide

example : pyEq (.obj [("a", .obj [("x", .str "")])]) (.obj [("a", .obj [])]) = false := by
  decide

/-- Escape of one character inside a Python string repr with the given
quote character: backslash, the quote, and the common control
characters newline, tab and carriage return are escaped. -/
def pyCharEscape (quote c : Char) : String :=
  if c = '\\' then "\\\\"
  else if c = quote then "\\" ++ String.mk [quote]
  else if c = '\n' then "\\n"
  else if c = '\t' then "\\t"
  else if c = Char.ofNat 13 then "\\r"
  else String.mk [c]

/-- Python `repr` of a string: single-quoted, except double-quoted when
the string contains a single quote but no double quote. -/
def pyStrRepr (s : String) : String :=
  let sq := Char.ofNat 39
  let dq := Char.ofNat 34
  let q := if s.data.contains sq && !(s.data.contains dq) then dq else sq
  String.mk [q] ++ String.join (s.data.map (pyCharEscape q)) ++ String.mk [q]

mutual

/-- Python `repr` of a parsed JSON value: dicts as `{k: v, ...}` with
repr-quoted keys, lists as `[x, ...]`, strings quoted, `True`/`False`,
`None`, integers in decimal. -/
def pyRepr : Doc → String
  | .obj kvs => "\x7b" ++ pyReprFields kvs ++ "\x7d"
  | .arr xs => "[" ++ pyReprElems xs ++ "]"
  | .str s => pyStrRepr s
  | .num n => toString n
  | .bool b => if b then "True" else "False"
  | .null => "None"

/-- Comma-separated `key: value` repr of dict entries. -/
def pyReprFields : List (String × Doc) → String
  | [] => ""
  | [(k, v)] => pyStrRepr k ++ ": " ++ pyRepr v
  | (k, v) :: rest => pyStrRepr k ++ ": " ++ pyRepr v ++ ", " ++ pyReprFields rest

/-- Comma-separated repr of list elements. -/
def pyReprElems : List Doc → String
  | [] => ""
  | [x] => pyRepr x
  | x :: rest => pyRepr x ++ ", " ++ pyReprElems rest

end

/-- Python `str` of a parsed JSON value: a string is returned as-is, any
other value is rendered by `repr` (how `str(...)` behaves on the values
the script displays). -/
def pyStr : Doc → String
  | .str s => s
  | d => pyRepr d

/-- Escape of one character in a JSON string literal produced by
`json.dumps` with `ensure_ascii=False`. -/
def jsonCharEscape (c : Char) : String :=
  if c = '\\' then "\\\\"
  else if c = Char.ofNat 34 then "\\" ++ String.mk [Char.ofNat 34]
  else if c = '\n' then "\\n"
  else if c = '\t' then "\\t"
  else if c = Char.ofNat 13 then "\\r"
  else String.mk [c]

/-- JSON string literal: double-quoted with `jsonCharEscape`d content. -/
def jsonStrLit (s : String) : String :=
  String.mk [Char.ofNat 34] ++ String.join (s.data.map jsonCharEscape) ++ String.mk [Char.ofNat 34]

mutual

/-- Model of Python `json.dumps` with default separators: objects as
`{"k": v, ...}`, arrays as `[x, ...]`, `true`/`false`/`null`, integers
in decimal.  (The script calls it both with `ensure_ascii=False` — for
the Added/Deleted summaries — and with the ASCII-escaping default — for
the sort key inside `format_json`; the two renderings differ only on
non-ASCII characters, which this model leaves unescaped.) -/
def jsonDumps : Doc → String
  | .obj kvs => "\x7b" ++ jsonDumpsFields kvs ++ "\x7d"
  | .arr xs => "[" ++ jsonDumpsElems xs ++ "]"
  | .str s => jsonStrLit s
  | .num n => toString n
  | .bool b => if b then "true" else "false"
  | .null => "null"

/-- Comma-separated `"key": value` serialization of object entries. -/
def jsonDumpsFields : List (String × Doc) → String
  | [] => ""
  | [(k, v)] => jsonStrLit k ++ ": " ++ jsonDumps v
  | (k, v) :: rest => jsonStrLit k ++ ": " ++ jsonDumps v ++ ", " ++ jsonDumpsFields rest

/-- Comma-separated serialization of array elements. -/
def jsonDumpsElems : List Doc → String
  | [] => ""
  | [x] => jsonDumps x
  | x :: rest => jsonDumps x ++ ", " ++ jsonDumpsElems rest

end

/-- Sort key used by `format_json` for list elements (line 24 of the
source): `json.dumps(x)` for dicts, `str(x)` otherwise. -/
def sortKey : Doc → String
  | .obj kvs => jsonDumps (.obj kvs)
  | d => pyStr d

/-- Lexicographic (code-point-wise) comparison of strings, as Python
compares `str` values; stated on the character lists so that it is
kernel-computable. -/
def pyStrLe (s t : String) : Prop := s.data ≤ t.data

instance : DecidableRel pyStrLe := fun s t => inferInstanceAs (Decidable (s.data ≤ t.data))

/-- Ordering of list elements in `format_json`: lexicographic comparison
of the rendered sort keys. -/
def docLe (a b : Doc) : Prop := pyStrLe (sortKey a) (sortKey b)

instance : DecidableRel docLe := fun a b => inferInstanceAs (Decidable (pyStrLe (sortKey a) (sortKey b)))

instance : IsTotal Doc docLe := ⟨fun a b => le_total (sortKey a).data (sortKey b).data⟩

instance : IsTrans Doc docLe := ⟨fun _ _ _ h1 h2 => le_trans h1 h2⟩

/-- Ordering of dict entries in `format_json` (`sorted(data.items())`):
by key.  Python compares the `(key, value)` tuples, but the value
components are only reached on equal keys, which cannot occur in a
Python dict. -/
def entryLe (a b : String × Doc) : Prop := pyStrLe a.1 b.1

instance : DecidableRel entryLe := fun a b => inferInstanceAs (Decidable (pyStrLe a.1 b.1))

instance : IsTotal (String × Doc) entryLe := ⟨fun a b => le_total a.1.data b.1.data⟩

instance : IsTrans (String × Doc) entryLe := ⟨fun _ _ _ h1 h2 => le_trans h1 h2⟩

/-- Strict version of `entryLe`, used to show that sorting entry lists
with pairwise-distinct keys is order-insensitive. -/
def entryLt (a b : String × Doc) : Prop := a.1.data < b.1.data

instance : IsAntisymm (String × Doc) entryLt := ⟨fun _ _ h1 h2 => (lt_asymm h1 h2).elim⟩

/-- Test from line 21 of the source: the element is a string containing
at least one digit character.  (Python's `str.isdigit` also accepts
non-ASCII digit characters; the model checks ASCII digits, which is the
only case the inputs of interest exercise.) -/
def isDigitStr : Doc → Bool
  | .str s => s.data.any Char.isDigit
  | _ => false

/-- Coordinate-pair heuristic (line 21): a two-element list whose
elements are both digit-containing strings is left untouched. -/
def coordCond (xs : List Doc) : Bool := xs.length == 2 && xs.all isDigitStr

theorem sizeOf_lt_of_mem_arr {d : Doc} {xs : List Doc} (h : d ∈ xs) :
    sizeOf d < sizeOf (Doc.arr xs) := by
  have h1 := List.sizeOf_lt_of_mem h
  have h2 : sizeOf (Doc.arr xs) = 1 + sizeOf xs := by simp
  omega

theorem sizeOf_lt_of_mem_obj {k : String} {v : Doc} {kvs : List (String × Doc)}
    (h : (k, v) ∈ kvs) : sizeOf v < sizeOf (Doc.obj kvs) := by
  have h1 := List.sizeOf_lt_of_mem h
  have h2 : sizeOf (k, v) = 1 + sizeOf k + sizeOf v := rfl
  have h3 : sizeOf (Doc.obj kvs) = 1 + sizeOf kvs := by simp
  omega

/-- Canonicalizer `format_json` (lines 17-27 of the source): lists are
left untouched when the coordinate heuristic fires, and otherwise have
their dict/list elements recursively formatted and are then sorted by
`sortKey`; dicts are sorted by key and have their dict/list values
recursively formatted; scalars are returned unchanged.  Python's
`sorted` (a stable sort) is modelled by `List.insertionSort`, which is
also stable. -/
def format_json : Doc → Doc
  | .arr xs =>
    if coordCond xs then .arr xs
    else .arr (List.insertionSort docLe (xs.attach.map fun x =>
      match x with
      | ⟨.obj o, _⟩ => format_json (.obj o)
      | ⟨.arr a, _⟩ => format_json (.arr a)
      | ⟨d, _⟩ => d))
  | .obj kvs =>
    .obj ((List.insertionSort entryLe kvs).attach.map fun e =>
      match e with
      | ⟨(k, .obj o), _⟩ => (k, format_json (.obj o))
      | ⟨(k, .arr a), _⟩ => (k, format_json (.arr a))
      | ⟨(k, v), _⟩ => (k, v))
  | d => d
termination_by d => sizeOf d
decreasing_by
  · exact sizeOf_lt_of_mem_arr (by assumption)
  · exact sizeOf_lt_of_mem_arr (by assumption)
  · exact sizeOf_lt_of_mem_obj (((List.perm_insertionSort entryLe kvs).mem_iff).mp (by assumption))
  · exact sizeOf_lt_of_mem_obj (((List.perm_insertionSort entryLe kvs).mem_iff).mp (by assumption))

/-- Per-element step of `format_json`'s list branch (line 23):
`format_json(item) if isinstance(item, (dict, list)) else item`. -/
def fmtElem (x : Doc) : Doc :=
  match x with
  | .obj _ => format_json x
  | .arr _ => format_json x
  | _ => x

/-- Per-entry step of `format_json`'s dict branch (line 26):
`(k, format_json(v) if isinstance(v, (dict, list)) else v)`. -/
def fmtEntry (e : String × Doc) : String × Doc := (e.1, fmtElem e.2)

/-- Unfolding of `format_json` on a list in terms of `fmtElem`. -/
theorem format_json_arr (xs : List Doc) :
    format_json (.arr xs) =
      if coordCond xs then .arr xs
      else .arr (List.insertionSort docLe (xs.map fmtElem)) := by
  rw [format_json]
  split
  · rfl
  · congr 2
    rw [← List.attach_map_val xs fmtElem]
    apply List.map_congr_left
    rintro ⟨d, hd⟩ _
    cases d <;> rfl

/-- Unfolding of `format_json` on a dict in terms of `fmtEntry`. -/
theorem format_json_obj (kvs : List (String × Doc)) :
    format_json (.obj kvs) = .obj ((List.insertionSort entryLe kvs).map fmtEntry) := by
  rw [format_json]
  congr 1
  rw [← List.attach_map_val (List.insertionSort entryLe kvs) fmtEntry]
  apply List.map_congr_left
  rintro ⟨⟨k, v⟩, hd⟩ _
  cases v <;> rfl

theorem format_json_arr_shape (xs : List Doc) : ∃ ys, format_json (.arr xs) = .arr ys := by
  rw [format_json_arr]
  split
  · exact ⟨xs, rfl⟩
  · exact ⟨_, rfl⟩

theorem format_json_obj_shape (kvs : List (String × Doc)) :
    ∃ es, format_json (.obj kvs) = .obj es :=
  ⟨_, format_json_obj kvs⟩

theorem fmtElem_isDigitStr (x : Doc) : isDigitStr (fmtElem x) = isDigitStr x := by
  cases x with
  | obj o =>
    obtain ⟨es, h⟩ := format_json_obj_shape o
    simp [fmtElem, h, isDigitStr]
  | arr a =>
    obtain ⟨ys, h⟩ := format_json_arr_shape a
    simp [fmtElem, h, isDigitStr]
  | str s => rfl
  | num n => rfl
  | bool b => rfl
  | null => rfl

/-- C5.  Canonicalization is idempotent: for every Document `d`,
`canonicalize(canonicalize(d)) == canonicalize(d)`, i.e.
`format_json (format_json d) = format_json d`. -/
theorem format_json_idempotent (d : Doc) : format_json (format_json d) = format_json d := by
  induction d using format_json.induct with
  | case1 xs hc =>
    rw [format_json_arr, if_pos hc, format_json_arr, if_pos hc]
  | case2 xs hc ih1 ih2 =>
    have hidem : ∀ x ∈ xs, fmtElem (fmtElem x) = fmtElem x := by
      intro x hx
      cases x with
      | obj o =>
        obtain ⟨es, he⟩ := format_json_obj_shape o
        show fmtElem (format_json (.obj o)) = format_json (.obj o)
        rw [he]
        show format_json (.obj es) = .obj es
        rw [← he]
        exact ih1 o hx
      | arr a =>
        obtain ⟨ys, he⟩ := format_json_arr_shape a
        show fmtElem (format_json (.arr a)) = format_json (.arr a)
        rw [he]
        show format_json (.arr ys) = .arr ys
        rw [← he]
        exact ih2 a hx
      | str s => rfl
      | num n => rfl
      | bool b => rfl
      | null => rfl
    have hcoord2 : ¬ coordCond (List.insertionSort docLe (xs.map fmtElem)) = true := by
      intro h
      apply hc
      unfold coordCond at h ⊢
      rw [Bool.and_eq_true] at h ⊢
      obtain ⟨hlen, hall⟩ := h
      have hlen2 := (List.perm_insertionSort docLe (xs.map fmtElem)).length_eq
      rw [List.length_map] at hlen2
      constructor
      · rw [beq_iff_eq] at hlen ⊢
        omega
      · rw [List.all_eq_true] at hall ⊢
        intro x hx
        have hmem : fmtElem x ∈ List.insertionSort docLe (xs.map fmtElem) :=
          (List.perm_insertionSort docLe _).mem_iff.mpr (List.mem_map_of_mem _ hx)
        have := hall _ hmem
        rwa [fmtElem_isDigitStr] at this
    rw [format_json_arr, if_neg hc, format_json_arr, if_neg hcoord2]
    congr 1
    have hmapid : (List.insertionSort docLe (xs.map fmtElem)).map fmtElem
        = List.insertionSort docLe (xs.map fmtElem) := by
      have h1 : (List.insertionSort docLe (xs.map fmtElem)).map fmtElem
          = (List.insertionSort docLe (xs.map fmtElem)).map id := by
        apply List.map_congr_left
        intro y hy
        have : y ∈ xs.map fmtElem := (List.perm_insertionSort docLe _).mem_iff.mp hy
        obtain ⟨x, hx, rfl⟩ := List.mem_map.mp this
        exact hidem x hx
      rw [h1, List.map_id]
    rw [hmapid]
    exact List.Sorted.insertionSort_eq (List.sorted_insertionSort docLe _)
  | case3 kvs ih1 ih2 =>
    rw [format_json_obj, format_json_obj]
    have hsorted : List.Sorted entryLe ((List.insertionSort entryLe kvs).map fmtEntry) := by
      have h1 : List.Sorted entryLe (List.insertionSort entryLe kvs) :=
        List.sorted_insertionSort entryLe kvs
      exact List.pairwise_map.mpr h1
    rw [List.Sorted.insertionSort_eq hsorted]
    congr 1
    have h2 : ((List.insertionSort entryLe kvs).map fmtEntry).map fmtEntry
        = ((List.insertionSort entryLe kvs).map fmtEntry).map id := by
      apply List.map_congr_left
      intro e he
      obtain ⟨e0, he0, rfl⟩ := List.mem_map.mp he
      show fmtEntry (fmtEntry e0) = fmtEntry e0
      obtain ⟨k, v⟩ := e0
      show (k, fmtElem (fmtElem v)) = (k, fmtElem v)
      congr 1
      cases v with
      | obj o =>
        obtain ⟨es2, he2⟩ := format_json_obj_shape o
        show fmtElem (format_json (.obj o)) = format_json (.obj o)
        rw [he2]
        show format_json (.obj es2) = .obj es2
        rw [← he2]
        exact ih1 k o he0
      | arr a =>
        obtain ⟨ys2, he2⟩ := format_json_arr_shape a
        show fmtElem (format_json (.arr a)) = format_json (.arr a)
        rw [he2]
        show format_json (.arr ys2) = .arr ys2
        rw [← he2]
        exact ih2 k a he0
      | str s => rfl
      | num n => rfl
      | bool b => rfl
      | null => rfl
    rw [h2, List.map_id]
  | case4 d h1 h2 =>
    have hd : format_json d = d := by
      cases d with
      | arr xs => exact (h1 xs rfl).elim
      | obj kvs => exact (h2 kvs rfl).elim
      | str s =>
        rw [format_json]
        · exact h1
        · exact h2
      | num n =>
        rw [format_json]
        · exact h1
        · exact h2
      | bool b =>
        rw [format_json]
        · exact h1
        · exact h2
      | null =>
        rw [format_json]
        · exact h1
        · exact h2
    rw [hd, hd]

theorem sorted_entryLt_insertionSort {l : List (String × Doc)}
    (hnd : (l.map Prod.fst).Nodup) :
    List.Sorted entryLt (List.insertionSort entryLe l) := by
  have hle : List.Sorted entryLe (List.insertionSort entryLe l) :=
    List.sorted_insertionSort entryLe l
  have hnd2 : ((List.insertionSort entryLe l).map Prod.fst).Nodup :=
    (((List.perm_insertionSort entryLe l).map Prod.fst).nodup_iff).mpr hnd
  have hne : List.Pairwise (fun a b : String × Doc => a.1 ≠ b.1) (List.insertionSort entryLe l) :=
    List.pairwise_map.mp hnd2
  refine (hle.and hne).imp ?_
  exact fun h => lt_of_le_of_ne h.1 (fun hc => h.2 (String.toList_inj.mp hc))

theorem insertionSort_entries_eq_of_perm {kvs kvs' : List (String × Doc)}
    (hnd : (kvs.map Prod.fst).Nodup) (hp : kvs.Perm kvs') :
    List.insertionSort entryLe kvs = List.insertionSort entryLe kvs' := by
  have hnd' : (kvs'.map Prod.fst).Nodup := ((hp.map Prod.fst).nodup_iff).mp hnd
  refine List.eq_of_perm_of_sorted (r := entryLt) ?_
    (sorted_entryLt_insertionSort hnd) (sorted_entryLt_insertionSort hnd')
  exact ((List.perm_insertionSort entryLe kvs).trans hp).trans
    (List.perm_insertionSort entryLe kvs').symm

/-- C7.  Order-insensitivity of canonicalization: for any object-typed
Document (whose keys, as in any Python dict, are pairwise distinct) and
any permutation of its key insertion order, `format_json` yields
identical output. -/
theorem format_json_order_insensitive (kvs kvs' : List (String × Doc))
    (hnd : (kvs.map Prod.fst).Nodup) (hp : kvs.Perm kvs') :
    format_json (.obj kvs) = format_json (.obj kvs') := by
  rw [format_json_obj, format_json_obj, insertionSort_entries_eq_of_perm hnd hp]

/-- Witness for C7 at a concrete input: the two entry orders of
`{"b": 1, "a": null}` canonicalize identically. -/
theorem format_json_order_insensitive_witness :
    format_json (.obj [("b", .num 1), ("a", .null)])
      = format_json (.obj [("a", .null), ("b", .num 1)]) :=
  format_json_order_insensitive _ _ (by decide)
    (List.Perm.swap ("a", Doc.null) ("b", Doc.num 1) [])

/-- C6.  Sequence canonicalization: a two-element sequence of
digit-containing strings is returned unchanged (no sorting, no
recursion); every other sequence has its dict/list elements recursively
canonicalized and is then sorted by lexicographic comparison of the
rendered keys (`json.dumps` for dicts, `str` otherwise); in particular
`["40.7128", "-74.0060"]` keeps its order while `["b", "a", "c"]` is
sorted. -/
theorem format_json_seq_spec :
    (∀ xs : List Doc, coordCond xs = true → format_json (.arr xs) = .arr xs)
    ∧ (∀ xs : List Doc, coordCond xs = false →
        format_json (.arr xs) = .arr (List.insertionSort docLe (xs.map fmtElem)))
    ∧ format_json (.arr [.str "40.7128", .str "-74.0060"])
        = .arr [.str "40.7128", .str "-74.0060"]
    ∧ format_json (.arr [.str "b", .str "a", .str "c"])
        = .arr [.str "a", .str "b", .str "c"] := by
  refine ⟨?_, ?_, ?_, ?_⟩
  · intro xs h
    rw [format_json_arr, if_pos h]
  · intro xs h
    rw [format_json_arr, if_neg (by simp [h])]
  · rw [format_json_arr, if_pos (by decide)]
  · rw [format_json_arr, if_neg (by decide)]
    decide

/-- Witness for C6's two conditional parts at concrete inputs. -/
theorem format_json_seq_spec_witness :
    format_json (.arr [.str "40", .str "7"]) = .arr [.str "40", .str "7"]
    ∧ format_json (.arr [.bool true, .null])
        = .arr (List.insertionSort docLe ([Doc.bool true, Doc.null].map fmtElem)) :=
  ⟨format_json_seq_spec.1 _ (by decide), format_json_seq_spec.2.1 _ (by decide)⟩

/-- ChangeRecord: one row of the comparison result (the dict literals
built throughout `compare_centers`, lines 65-156). -/
structure ChangeRecord where
  changeType : String
  branch_code : String
  fieldName : String
  oldValue : String
  newValue : String
deriving DecidableEq, Repr

/-- Record: one center — a Python dict field-name → value. -/
abbrev Record := List (String × Doc)

/-- RecordSet: a Python dict branch_code → center, as built by the
indexer. -/
abbrev RecordSet := List (String × Record)

/-- Dictionary access `centers[branch_code]` for a key known to be
present (defaulting to the empty record otherwise, which no caller
relies on). -/
def lookupD (rs : RecordSet) (k : String) : Record := (rs.lookup k).getD []

/-- Python `==` between two records (dict comparison). -/
def pyEqRecord (o n : Record) : Bool := pyEq (.obj o) (.obj n)

/-- Python string slice `s[:n]`: the first `n` characters. -/
def pyTake (s : String) (n : Nat) : String := String.mk (s.data.take n)

/-- Key set of a RecordSet, `set(centers.keys())`, as a duplicate-free
list (lines 53-54). -/
def keysOf (rs : RecordSet) : List String := (rs.map Prod.fst).dedup

/-- Set difference `new_branch_codes - old_branch_codes` (line 56). -/
def addedKeys (old_centers new_centers : RecordSet) : List String :=
  (keysOf new_centers).filter fun k => decide (k ∉ keysOf old_centers)

/-- Set difference `old_branch_codes - new_branch_codes` (line 57). -/
def deletedKeys (old_centers new_centers : RecordSet) : List String :=
  (keysOf old_centers).filter fun k => decide (k ∉ keysOf new_centers)

/-- Set intersection `old_branch_codes ∩ new_branch_codes` (line 58). -/
def commonKeys (old_centers new_centers : RecordSet) : List String :=
  (keysOf old_centers).filter fun k => decide (k ∈ keysOf new_centers)

/-- Added row (lines 65-71). -/
def mkAdded (new_centers : RecordSet) (branch_code : String) : ChangeRecord :=
  { changeType := "Added", branch_code, fieldName := "", oldValue := "",
    newValue := pyTake (jsonDumps (.obj (lookupD new_centers branch_code))) 200 }

/-- Deleted row (lines 75-81). -/
def mkDeleted (old_centers : RecordSet) (branch_code : String) : ChangeRecord :=
  { changeType := "Deleted", branch_code, fieldName := "",
    oldValue := pyTake (jsonDumps (.obj (lookupD old_centers branch_code))) 200, newValue := "" }

/-- Per-field body of the modified-entry loop (lines 94-156): nested
dicts are compared key-by-key with a missing nested key read as the
empty string (`.get(nested_field, '')`), lists by whole-value equality,
anything else directly; a field present on only one side produces one
Modified row with the `<FIELD_REMOVED>` / `<FIELD_ADDED>` sentinel. -/
def compareField (branch_code field : String) (old_center new_center : Record) :
    List ChangeRecord :=
  match old_center.lookup field, new_center.lookup field with
  | some oldv, some newv =>
    match oldv, newv with
    | .obj okvs, .obj nkvs =>
      let nested_fields := (okvs.map Prod.fst ++ nkvs.map Prod.fst).dedup
      nested_fields.filterMap fun nested_field =>
        let old_value := (okvs.lookup nested_field).getD (.str "")
        let new_value := (nkvs.lookup nested_field).getD (.str "")
        if pyEq old_value new_value then none
        else some { changeType := "Modified", branch_code,
                    fieldName := field ++ "." ++ nested_field,
                    oldValue := pyStr old_value, newValue := pyStr new_value }
    | .arr oldxs, .arr newxs =>
      if pyEq (.arr oldxs) (.arr newxs) then []
      else [{ changeType := "Modified", branch_code, fieldName := field,
              oldValue := pyStr (.arr oldxs), newValue := pyStr (.arr newxs) }]
    | _, _ =>
      if pyEq oldv newv then []
      else [{ changeType := "Modified", branch_code, fieldName := field,
              oldValue := pyStr oldv, newValue := pyStr newv }]
  | some oldv, none =>
    [{ changeType := "Modified", branch_code, fieldName := field,
       oldValue := pyStr oldv, newValue := "<FIELD_REMOVED>" }]
  | none, some newv =>
    [{ changeType := "Modified", branch_code, fieldName := field,
       oldValue := "<FIELD_ADDED>", newValue := pyStr newv }]
  | none, none => []

/-- Per-common-key body (lines 84-156): nothing is emitted when the two
records compare `==`; otherwise every field of
`set(old.keys()) | set(new.keys())` is processed by `compareField`. -/
def compareCommon (branch_code : String) (old_center new_center : Record) :
    List ChangeRecord :=
  if pyEqRecord old_center new_center then []
  else
    let all_fields := (old_center.map Prod.fst ++ new_center.map Prod.fst).dedup
    all_fields.flatMap fun field => compareField branch_code field old_center new_center

/-- Differ `compare_centers` (lines 47-158): Added rows for new-only
keys, Deleted rows for old-only keys, then the per-common-key field
comparison.  Python iterates the three key sets in unspecified order;
the model fixes one enumeration of each set. -/
def compare_centers (old_centers new_centers : RecordSet) : List ChangeRecord :=
  ((addedKeys old_centers new_centers).map (mkAdded new_centers))
  ++ ((deletedKeys old_centers new_centers).map (mkDeleted old_centers))
  ++ ((commonKeys old_centers new_centers).flatMap fun branch_code =>
      compareCommon branch_code (lookupD old_centers branch_code)
        (lookupD new_centers branch_code))

example : compare_centers [("X1", [("address", .obj [("city", .str "A")])])]
    [("X1", [("address", .obj [("city", .str "B")])])]
    = [{ changeType := "Modified", branch_code := "X1", fieldName := "address.city",
         oldValue := "A", newValue := "B" }] := by decide

theorem mem_addedKeys {O N : RecordSet} {k : String} :
    k ∈ addedKeys O N ↔ k ∈ N.map Prod.fst ∧ k ∉ O.map Prod.fst := by
  simp [addedKeys, keysOf, List.mem_filter, List.mem_dedup]

theorem mem_deletedKeys {O N : RecordSet} {k : String} :
    k ∈ deletedKeys O N ↔ k ∈ O.map Prod.fst ∧ k ∉ N.map Prod.fst := by
  simp [deletedKeys, keysOf, List.mem_filter, List.mem_dedup]

theorem mem_commonKeys {O N : RecordSet} {k : String} :
    k ∈ commonKeys O N ↔ k ∈ O.map Prod.fst ∧ k ∈ N.map Prod.fst := by
  simp [commonKeys, keysOf, List.mem_filter, List.mem_dedup]

theorem nodup_addedKeys (O N : RecordSet) : (addedKeys O N).Nodup :=
  (List.nodup_dedup _).filter _

theorem nodup_deletedKeys (O N : RecordSet) : (deletedKeys O N).Nodup :=
  (List.nodup_dedup _).filter _

theorem compareField_mem {bc f : String} {oc nc : Record} {r : ChangeRecord}
    (h : r ∈ compareField bc f oc nc) :
    r.changeType = "Modified" ∧ r.branch_code = bc := by
  unfold compareField at h
  split at h
  · split at h
    · obtain ⟨nf, hnf, hr⟩ := List.mem_filterMap.mp h
      dsimp only at hr
      split at hr
      · exact absurd hr (by simp)
      · obtain rfl := Option.some.inj hr
        exact ⟨rfl, rfl⟩
    · split at h
      · exact absurd h (by simp)
      · obtain rfl := List.mem_singleton.mp h
        exact ⟨rfl, rfl⟩
    · split at h
      · exact absurd h (by simp)
      · obtain rfl := List.mem_singleton.mp h
        exact ⟨rfl, rfl⟩
  · obtain rfl := List.mem_singleton.mp h
    exact ⟨rfl, rfl⟩
  · obtain rfl := List.mem_singleton.mp h
    exact ⟨rfl, rfl⟩
  · exact absurd h (by simp)

theorem compareCommon_mem {bc : String} {oc nc : Record} {r : ChangeRecord}
    (h : r ∈ compareCommon bc oc nc) :
    r.changeType = "Modified" ∧ r.branch_code = bc := by
  unfold compareCommon at h
  split at h
  · exact absurd h (by simp)
  · obtain ⟨f, hf, hr⟩ := List.mem_flatMap.mp h
    exact compareField_mem hr

theorem compareCommon_eq_nil {bc : String} {oc nc : Record}
    (h : pyEqRecord oc nc = true) : compareCommon bc oc nc = [] := by
  unfold compareCommon
  rw [if_pos h]

theorem compareCommon_ne_of_mem {bc : String} {oc nc : Record} {r : ChangeRecord}
    (h : r ∈ compareCommon bc oc nc) : pyEqRecord oc nc = false := by
  unfold compareCommon at h
  split at h
  · exact absurd h (by simp)
  · rename_i hcond
    cases hb : pyEqRecord oc nc
    · rfl
    · exact absurd hb hcond

theorem countP_map_key (f : String → ChangeRecord) (l : List String) (k ct : String)
    (hbc : ∀ x, (f x).branch_code = x) (hct : ∀ x, (f x).changeType = ct) :
    (l.map f).countP (fun r => r.branch_code == k && r.changeType == ct) = List.count k l := by
  rw [List.countP_map, List.count_eq_countP]
  apply List.countP_congr
  intro x hx
  simp [Function.comp, hbc, hct]

theorem countP_map_key_ne (f : String → ChangeRecord) (l : List String) (k ct ct' : String)
    (hct : ∀ x, (f x).changeType = ct') (hne : ct' ≠ ct) :
    (l.map f).countP (fun r => r.branch_code == k && r.changeType == ct) = 0 := by
  apply List.countP_eq_zero.mpr
  intro r hr
  obtain ⟨x, hx, rfl⟩ := List.mem_map.mp hr
  simp [hct, hne]

theorem countP_common_segment (O N : RecordSet) (k ct : String)
    (hk : k ∉ O.map Prod.fst ∨ k ∉ N.map Prod.fst) :
    ((commonKeys O N).flatMap fun bc =>
        compareCommon bc (lookupD O bc) (lookupD N bc)).countP
      (fun r => r.branch_code == k && r.changeType == ct) = 0 := by
  apply List.countP_eq_zero.mpr
  intro r hr
  obtain ⟨bc, hbcm, hr2⟩ := List.mem_flatMap.mp hr
  obtain ⟨hctr, hbcr⟩ := compareCommon_mem hr2
  obtain ⟨hO, hN⟩ := mem_commonKeys.mp hbcm
  have hne : bc ≠ k := by
    rintro rfl
    cases hk with
    | inl h => exact h hO
    | inr h => exact h hN
  simp [hbcr, hne]

/-- C1.  Diff completeness: every key only in the new RecordSet produces
exactly one Added row and no Deleted or Modified row, and symmetrically
every key only in the old RecordSet produces exactly one Deleted row
and no Added or Modified row. -/
theorem diff_completeness (O N : RecordSet) (k : String) :
    (k ∈ N.map Prod.fst → k ∉ O.map Prod.fst →
      ((compare_centers O N).countP
          (fun r => r.branch_code == k && r.changeType == "Added") = 1
        ∧ (compare_centers O N).countP
            (fun r => r.branch_code == k && r.changeType == "Deleted") = 0
        ∧ (compare_centers O N).countP
            (fun r => r.branch_code == k && r.changeType == "Modified") = 0))
    ∧ (k ∈ O.map Prod.fst → k ∉ N.map Prod.fst →
      ((compare_centers O N).countP
          (fun r => r.branch_code == k && r.changeType == "Deleted") = 1
        ∧ (compare_centers O N).countP
            (fun r => r.branch_code == k && r.changeType == "Added") = 0
        ∧ (compare_centers O N).countP
            (fun r => r.branch_code == k && r.changeType == "Modified") = 0)) := by
  constructor
  · intro h1 h2
    refine ⟨?_, ?_, ?_⟩
    · simp only [compare_centers, List.countP_append]
      rw [countP_map_key (mkAdded N) _ k "Added" (fun _ => rfl) (fun _ => rfl),
        countP_map_key_ne (mkDeleted O) _ k "Added" "Deleted" (fun _ => rfl) (by decide),
        countP_common_segment O N k "Added" (Or.inl h2),
        List.count_eq_one_of_mem (nodup_addedKeys O N) (mem_addedKeys.mpr ⟨h1, h2⟩)]
    · simp only [compare_centers, List.countP_append]
      rw [countP_map_key_ne (mkAdded N) _ k "Deleted" "Added" (fun _ => rfl) (by decide),
        countP_map_key (mkDeleted O) _ k "Deleted" (fun _ => rfl) (fun _ => rfl),
        countP_common_segment O N k "Deleted" (Or.inl h2),
        List.count_eq_zero.mpr (fun hc => h2 (mem_deletedKeys.mp hc).1)]
    · simp only [compare_centers, List.countP_append]
      rw [countP_map_key_ne (mkAdded N) _ k "Modified" "Added" (fun _ => rfl) (by decide),
        countP_map_key_ne (mkDeleted O) _ k "Modified" "Deleted" (fun _ => rfl) (by decide),
        countP_common_segment O N k "Modified" (Or.inl h2)]
  · intro h1 h2
    refine ⟨?_, ?_, ?_⟩
    · simp only [compare_centers, List.countP_append]
      rw [countP_map_key_ne (mkAdded N) _ k "Deleted" "Added" (fun _ => rfl) (by decide),
        countP_map_key (mkDeleted O) _ k "Deleted" (fun _ => rfl) (fun _ => rfl),
        countP_common_segment O N k "Deleted" (Or.inr h2),
        List.count_eq_one_of_mem (nodup_deletedKeys O N) (mem_deletedKeys.mpr ⟨h1, h2⟩)]
    · simp only [compare_centers, List.countP_append]
      rw [countP_map_key (mkAdded N) _ k "Added" (fun _ => rfl) (fun _ => rfl),
        countP_map_key_ne (mkDeleted O) _ k "Added" "Deleted" (fun _ => rfl) (by decide),
        countP_common_segment O N k "Added" (Or.inr h2),
        List.count_eq_zero.mpr (fun hc => h2 (mem_addedKeys.mp hc).1)]
    · simp only [compare_centers, List.countP_append]
      rw [countP_map_key_ne (mkAdded N) _ k "Modified" "Added" (fun _ => rfl) (by decide),
        countP_map_key_ne (mkDeleted O) _ k "Modified" "Deleted" (fun _ => rfl) (by decide),
        countP_common_segment O N k "Modified" (Or.inr h2)]

/-- Witness for C1 at concrete inputs: one Added row for the new-only
key, one Deleted row for the old-only key. -/
theorem diff_completeness_witness :
    (compare_centers [] [("X1", [("branch_code", Doc.str "X1")])]).countP
      (fun r => r.branch_code == "X1" && r.changeType == "Added") = 1
    ∧ (compare_centers [("X1", [("branch_code", Doc.str "X1")])] []).countP
      (fun r => r.branch_code == "X1" && r.changeType == "Deleted") = 1 :=
  ⟨((diff_completeness [] [("X1", [("branch_code", Doc.str "X1")])] "X1").1
      (by decide) (by decide)).1,
   ((diff_completeness [("X1", [("branch_code", Doc.str "X1")])] [] "X1").2
      (by decide) (by decide)).1⟩

/-- C2.  Diff soundness: for a common key whose two records compare
equal under Python `==`, no ChangeRecord at all is emitted for that
key. -/
theorem diff_soundness (O N : RecordSet) (k : String)
    (h1 : k ∈ O.map Prod.fst) (h2 : k ∈ N.map Prod.fst)
    (heq : pyEqRecord (lookupD O k) (lookupD N k) = true) :
    (compare_centers O N).countP (fun r => r.branch_code == k) = 0 := by
  apply List.countP_eq_zero.mpr
  intro r hr
  simp only [beq_iff_eq]
  simp only [compare_centers, List.mem_append] at hr
  rcases hr with (hr | hr) | hr
  · obtain ⟨x, hx, rfl⟩ := List.mem_map.mp hr
    intro hc
    have hxk : x = k := hc
    exact (mem_addedKeys.mp hx).2 (hxk.symm ▸ h1)
  · obtain ⟨x, hx, rfl⟩ := List.mem_map.mp hr
    intro hc
    have hxk : x = k := hc
    exact (mem_deletedKeys.mp hx).2 (hxk.symm ▸ h2)
  · obtain ⟨bc, hbcm, hr2⟩ := List.mem_flatMap.mp hr
    intro hc
    have hbck : bc = k := by rw [← (compareCommon_mem hr2).2, hc]
    subst hbck
    have hne := compareCommon_ne_of_mem hr2
    rw [heq] at hne
    exact Bool.noConfusion hne

/-- Witness for C2 at a concrete input: equal records for the common key
produce no row carrying that key. -/
theorem diff_soundness_witness :
    (compare_centers [("X1", [("name", Doc.str "Foo")])]
      [("X1", [("name", Doc.str "Foo")])]).countP (fun r => r.branch_code == "X1") = 0 :=
  diff_soundness [("X1", [("name", Doc.str "Foo")])] [("X1", [("name", Doc.str "Foo")])]
    "X1" (by decide) (by decide) (by decide)

/-- C9.  ChangeRecord key partition: every emitted row's key is new-only
(Added), old-only (Deleted), or present in both with records differing
under Python `==` (Modified); consequently no key ever appears in the
change list under two different ChangeTypes. -/
theorem change_record_partition (O N : RecordSet) :
    (∀ r ∈ compare_centers O N,
      (r.changeType = "Added" ∧ r.branch_code ∈ N.map Prod.fst
        ∧ r.branch_code ∉ O.map Prod.fst)
      ∨ (r.changeType = "Deleted" ∧ r.branch_code ∈ O.map Prod.fst
        ∧ r.branch_code ∉ N.map Prod.fst)
      ∨ (r.changeType = "Modified" ∧ r.branch_code ∈ O.map Prod.fst
        ∧ r.branch_code ∈ N.map Prod.fst
        ∧ pyEqRecord (lookupD O r.branch_code) (lookupD N r.branch_code) = false))
    ∧ (∀ r1 ∈ compare_centers O N, ∀ r2 ∈ compare_centers O N,
        r1.branch_code = r2.branch_code → r1.changeType = r2.changeType) := by
  have hmain : ∀ r ∈ compare_centers O N,
      (r.changeType = "Added" ∧ r.branch_code ∈ N.map Prod.fst
        ∧ r.branch_code ∉ O.map Prod.fst)
      ∨ (r.changeType = "Deleted" ∧ r.branch_code ∈ O.map Prod.fst
        ∧ r.branch_code ∉ N.map Prod.fst)
      ∨ (r.changeType = "Modified" ∧ r.branch_code ∈ O.map Prod.fst
        ∧ r.branch_code ∈ N.map Prod.fst
        ∧ pyEqRecord (lookupD O r.branch_code) (lookupD N r.branch_code) = false) := by
    intro r hr
    simp only [compare_centers, List.mem_append] at hr
    rcases hr with (hr | hr) | hr
    · obtain ⟨x, hx, rfl⟩ := List.mem_map.mp hr
      obtain ⟨hxN, hxO⟩ := mem_addedKeys.mp hx
      exact Or.inl ⟨rfl, hxN, hxO⟩
    · obtain ⟨x, hx, rfl⟩ := List.mem_map.mp hr
      obtain ⟨hxO, hxN⟩ := mem_deletedKeys.mp hx
      exact Or.inr (Or.inl ⟨rfl, hxO, hxN⟩)
    · obtain ⟨bc, hbcm, hr2⟩ := List.mem_flatMap.mp hr
      obtain ⟨hct, hbc⟩ := compareCommon_mem hr2
      obtain ⟨hO, hN⟩ := mem_commonKeys.mp hbcm
      refine Or.inr (Or.inr ⟨hct, ?_, ?_, ?_⟩)
      · rw [hbc]; exact hO
      · rw [hbc]; exact hN
      · rw [hbc]; exact compareCommon_ne_of_mem hr2
  refine ⟨hmain, ?_⟩
  intro r1 h1 r2 h2 hbc
  rcases hmain r1 h1 with ⟨hct1, hN1, hO1⟩ | ⟨hct1, hO1, hN1⟩ | ⟨hct1, hO1, hN1, hpe1⟩ <;>
    rcases hmain r2 h2 with ⟨hct2, hN2, hO2⟩ | ⟨hct2, hO2, hN2⟩ | ⟨hct2, hO2, hN2, hpe2⟩
  · rw [hct1, hct2]
  · exact absurd hO2 (hbc ▸ hO1)
  · exact absurd hO2 (hbc ▸ hO1)
  · exact absurd hN2 (hbc ▸ hN1)
  · rw [hct1, hct2]
  · exact absurd hN2 (hbc ▸ hN1)
  · exact absurd (hbc ▸ hO1) hO2
  · exact absurd (hbc ▸ hN1) hN2
  · rw [hct1, hct2]

/-- Sample old RecordSet used by the C9 witness. -/
def sampleOld : RecordSet := [("X1", [("name", Doc.str "Foo")])]

/-- Deleted row produced for `sampleOld` against an empty new set. -/
def sampleDeletedRow : ChangeRecord := mkDeleted sampleOld "X1"

/-- Witness for C9 at a concrete input: the Deleted row emitted for the
old-only key falls in the old-only category. -/
theorem change_record_partition_witness :
    (sampleDeletedRow.changeType = "Added"
      ∧ sampleDeletedRow.branch_code ∈ ([] : RecordSet).map Prod.fst
      ∧ sampleDeletedRow.branch_code ∉ sampleOld.map Prod.fst)
    ∨ (sampleDeletedRow.changeType = "Deleted"
      ∧ sampleDeletedRow.branch_code ∈ sampleOld.map Prod.fst
      ∧ sampleDeletedRow.branch_code ∉ ([] : RecordSet).map Prod.fst)
    ∨ (sampleDeletedRow.changeType = "Modified"
      ∧ sampleDeletedRow.branch_code ∈ sampleOld.map Prod.fst
      ∧ sampleDeletedRow.branch_code ∈ ([] : RecordSet).map Prod.fst
      ∧ pyEqRecord (lookupD sampleOld sampleDeletedRow.branch_code)
          (lookupD [] sampleDeletedRow.branch_code) = false) :=
  (change_record_partition sampleOld []).1 sampleDeletedRow (by decide)

/-- C10.  Implicit blind spot of the empty-string default: two records
that are unequal under Python `==` — old nested object binds a key to
`""`, new nested object lacks the key — yield no ChangeRecord at all,
because `.get(nested_field, '')` makes the two sides look equal. -/
theorem empty_string_default_blind_spot :
    pyEqRecord (lookupD [("X1", [("address", Doc.obj [("city", Doc.str "")])])] "X1")
        (lookupD [("X1", [("address", Doc.obj [])])] "X1") = false
    ∧ "X1" ∈ ([("X1", [("address", Doc.obj [("city", Doc.str "")])])] : RecordSet).map Prod.fst
    ∧ "X1" ∈ ([("X1", [("address", Doc.obj [])])] : RecordSet).map Prod.fst
    ∧ compare_centers [("X1", [("address", Doc.obj [("city", Doc.str "")])])]
        [("X1", [("address", Doc.obj [])])] = [] :=
  ⟨by decide, by decide, by decide, by decide⟩

theorem string_append_cancel_left {s t u : String} (h : s ++ t = s ++ u) : t = u := by
  have hd : (s ++ t).data = (s ++ u).data := by rw [h]
  rw [String.data_append, String.data_append] at hd
  exact String.toList_inj.mp (List.append_cancel_left hd)

theorem fieldName_beq (f nf' nf : String) :
    (f ++ "." ++ nf' == f ++ "." ++ nf) = (nf' == nf) := by
  by_cases h : nf' = nf
  · subst h; simp
  · have hne : ¬ (f ++ "." ++ nf' = f ++ "." ++ nf) := fun hc => h (string_append_cancel_left hc)
    rw [beq_eq_false_iff_ne.mpr hne, beq_eq_false_iff_ne.mpr h]

theorem countP_filterMap_guard (l : List String) (q : String → Bool)
    (mk : String → ChangeRecord) (p : ChangeRecord → Bool) :
    (l.filterMap fun x => if q x then none else some (mk x)).countP p
      = l.countP fun x => !(q x) && p (mk x) := by
  induction l with
  | nil => rfl
  | cons a l ih =>
    rw [List.filterMap_cons, List.countP_cons]
    by_cases h : q a
    · rw [if_pos h, ih]
      simp [h]
    · rw [if_neg h, List.countP_cons, ih]
      simp [h]

theorem countP_filterMap_ite (l : List String) (hnd : l.Nodup) (nf : String) (hmem : nf ∈ l)
    (q : String → Bool) (mk : String → ChangeRecord) (p : ChangeRecord → Bool)
    (hp : ∀ x, p (mk x) = (x == nf)) :
    (l.filterMap fun x => if q x then none else some (mk x)).countP p
      = if q nf then 0 else 1 := by
  rw [countP_filterMap_guard]
  have h1 : l.countP (fun x => !(q x) && p (mk x)) = l.countP (fun x => !(q nf) && (x == nf)) := by
    apply List.countP_congr
    intro x hx
    rw [hp]
    by_cases hxeq : x = nf
    · subst hxeq; exact Iff.rfl
    · simp [hxeq]
  rw [h1]
  by_cases hq : q nf
  · rw [if_pos hq]
    apply List.countP_eq_zero.mpr
    intro x hx
    simp [hq]
  · rw [if_neg hq]
    have h2 : l.countP (fun x => !(q nf) && (x == nf)) = l.countP (fun x => x == nf) := by
      apply List.countP_congr
      intro x hx
      simp [hq]
    rw [h2, ← List.count_eq_countP]
    exact List.count_eq_one_of_mem hnd hmem

/-- C3.  Nested-field comparison: for a field that is object-valued on
both sides, the diff iterates the union of the two nested key sets with
a nested field absent on one side read as the empty string, and emits
exactly one Modified row with fieldPath `field.nestedField` (old/new as
display strings) for each nested field whose two values differ — in
particular `{"address": {"city": "A"}}` against
`{"address": {"city": "B"}}` yields exactly the one Modified row
`("address.city", "A", "B")`. -/
theorem nested_field_comparison :
    (∀ (bc f : String) (oc nc : Record) (okvs nkvs : List (String × Doc)) (nf : String),
      oc.lookup f = some (.obj okvs) →
      nc.lookup f = some (.obj nkvs) →
      nf ∈ okvs.map Prod.fst ++ nkvs.map Prod.fst →
      ((compareField bc f oc nc).countP
          (fun r => r.fieldName == f ++ "." ++ nf)
        = if pyEq ((okvs.lookup nf).getD (.str "")) ((nkvs.lookup nf).getD (.str ""))
          then 0 else 1)
      ∧ (pyEq ((okvs.lookup nf).getD (.str "")) ((nkvs.lookup nf).getD (.str "")) = false →
        { changeType := "Modified", branch_code := bc, fieldName := f ++ "." ++ nf,
          oldValue := pyStr ((okvs.lookup nf).getD (.str "")),
          newValue := pyStr ((nkvs.lookup nf).getD (.str "")) } ∈ compareField bc f oc nc))
    ∧ compare_centers [("X1", [("address", Doc.obj [("city", Doc.str "A")])])]
        [("X1", [("address", Doc.obj [("city", Doc.str "B")])])]
        = [{ changeType := "Modified", branch_code := "X1", fieldName := "address.city",
             oldValue := "A", newValue := "B" }] := by
  constructor
  · intro bc f oc nc okvs nkvs nf h1 h2 hmem
    have hbody : compareField bc f oc nc
        = ((okvs.map Prod.fst ++ nkvs.map Prod.fst).dedup.filterMap fun x =>
            if pyEq ((okvs.lookup x).getD (.str "")) ((nkvs.lookup x).getD (.str ""))
            then none
            else some { changeType := "Modified", branch_code := bc,
                        fieldName := f ++ "." ++ x,
                        oldValue := pyStr ((okvs.lookup x).getD (.str "")),
                        newValue := pyStr ((nkvs.lookup x).getD (.str "")) }) := by
      unfold compareField
      rw [h1, h2]
    constructor
    · rw [hbody]
      exact countP_filterMap_ite _ (List.nodup_dedup _) nf (List.mem_dedup.mpr hmem) _ _ _
        (fun x => fieldName_beq f x nf)
    · intro hneq
      rw [hbody]
      refine List.mem_filterMap.mpr ⟨nf, List.mem_dedup.mpr hmem, ?_⟩
      rw [if_neg (by simp [hneq])]
  · decide

/-- Witness for C3's general part at a concrete input: the one differing
nested field of the `address` objects is counted exactly once and its
row is emitted. -/
theorem nested_field_comparison_witness :
    ((compareField "X1" "address" [("address", Doc.obj [("city", Doc.str "A")])]
        [("address", Doc.obj [("city", Doc.str "B")])]).countP
        (fun r => r.fieldName == "address" ++ "." ++ "city")
      = if pyEq (([("city", Doc.str "A")].lookup "city").getD (.str ""))
            (([("city", Doc.str "B")].lookup "city").getD (.str ""))
        then 0 else 1)
    ∧ { changeType := "Modified", branch_code := "X1", fieldName := "address" ++ "." ++ "city",
        oldValue := pyStr (([("city", Doc.str "A")].lookup "city").getD (.str "")),
        newValue := pyStr (([("city", Doc.str "B")].lookup "city").getD (.str "")) }
        ∈ compareField "X1" "address" [("address", Doc.obj [("city", Doc.str "A")])]
            [("address", Doc.obj [("city", Doc.str "B")])] :=
  ⟨(nested_field_comparison.1 "X1" "address" _ _ _ _ "city" (by decide) (by decide)
      (by decide)).1,
   (nested_field_comparison.1 "X1" "address" _ _ _ _ "city" (by decide) (by decide)
      (by decide)).2 (by decide)⟩

/-- C4.  Field add/remove sentinels: a field present only in the old
record yields exactly one Modified row with that fieldPath, the old
value's display string, and the `<FIELD_REMOVED>` sentinel as new
value; a field present only in the new record yields exactly one
Modified row with the `<FIELD_ADDED>` sentinel as old value and the new
value's display string; and for a common key with records unequal under
Python `==`, every such per-field row appears in the diff output. -/
theorem field_sentinels :
    (∀ (bc f : String) (oc nc : Record) (v : Doc),
      oc.lookup f = some v → nc.lookup f = none →
      compareField bc f oc nc
        = [{ changeType := "Modified", branch_code := bc, fieldName := f,
             oldValue := pyStr v, newValue := "<FIELD_REMOVED>" }])
    ∧ (∀ (bc f : String) (oc nc : Record) (v : Doc),
      oc.lookup f = none → nc.lookup f = some v →
      compareField bc f oc nc
        = [{ changeType := "Modified", branch_code := bc, fieldName := f,
             oldValue := "<FIELD_ADDED>", newValue := pyStr v }])
    ∧ (∀ (O N : RecordSet) (k f : String),
      k ∈ O.map Prod.fst → k ∈ N.map Prod.fst →
      pyEqRecord (lookupD O k) (lookupD N k) = false →
      f ∈ ((lookupD O k).map Prod.fst ++ (lookupD N k).map Prod.fst).dedup →
      ∀ r ∈ compareField k f (lookupD O k) (lookupD N k), r ∈ compare_centers O N) := by
  refine ⟨?_, ?_, ?_⟩
  · intro bc f oc nc v h1 h2
    unfold compareField
    rw [h1, h2]
  · intro bc f oc nc v h1 h2
    unfold compareField
    rw [h1, h2]
  · intro O N k f hO hN hne hf r hr
    simp only [compare_centers, List.mem_append]
    refine Or.inr ?_
    refine List.mem_flatMap.mpr ⟨k, mem_commonKeys.mpr ⟨hO, hN⟩, ?_⟩
    unfold compareCommon
    rw [if_neg (by simp [hne])]
    exact List.mem_flatMap.mpr ⟨f, hf, hr⟩

/-- Witness for C4 at the spec's scenario: dropping the `phone` field
produces the single `<FIELD_REMOVED>` row, which appears in the diff of
the two RecordSets; adding a field produces the `<FIELD_ADDED>` row. -/
theorem field_sentinels_witness :
    compareField "X1" "phone" [("branch_code", Doc.str "X1"), ("phone", Doc.str "123")]
        [("branch_code", Doc.str "X1")]
      = [{ changeType := "Modified", branch_code := "X1", fieldName := "phone",
           oldValue := pyStr (Doc.str "123"), newValue := "<FIELD_REMOVED>" }]
    ∧ compareField "X1" "phone" [("branch_code", Doc.str "X1")]
        [("branch_code", Doc.str "X1"), ("phone", Doc.str "123")]
      = [{ changeType := "Modified", branch_code := "X1", fieldName := "phone",
           oldValue := "<FIELD_ADDED>", newValue := pyStr (Doc.str "123") }]
    ∧ { changeType := "Modified", branch_code := "X1", fieldName := "phone",
        oldValue := pyStr (Doc.str "123"), newValue := "<FIELD_REMOVED>" }
      ∈ compare_centers [("X1", [("branch_code", Doc.str "X1"), ("phone", Doc.str "123")])]
        [("X1", [("branch_code", Doc.str "X1")])] :=
  ⟨field_sentinels.1 "X1" "phone" _ _ (Doc.str "123") (by decide) (by decide),
   field_sentinels.2.1 "X1" "phone" _ _ (Doc.str "123") (by decide) (by decide),
   field_sentinels.2.2 _ _ "X1" "phone" (by decide) (by decide) (by decide) (by decide)
     _ (by decide)⟩

/-- Hashability of a parsed JSON value as a Python dict key: lists and
dicts are unhashable, scalars are hashable. -/
def isHashable : Doc → Bool
  | .obj _ => false
  | .arr _ => false
  | _ => true

/-- Python iteration over a value: a list yields its elements, a dict
its keys, a string its characters (as one-character strings); numbers,
booleans and None are not iterable and raise `TypeError`. -/
def iterElems : Doc → Except String (List Doc)
  | .arr xs => .ok xs
  | .obj kvs => .ok (kvs.map fun kv => .str kv.1)
  | .str s => .ok (s.data.map fun c => .str (String.mk [c]))
  | _ => .error "TypeError: object is not iterable"

/-- Record-sequence source (lines 31-37 of the source): the `data` field
of a dict when present (iterated by the loop of line 41), a top-level
list as-is, anything else the empty sequence. -/
def centersList (json_data : Doc) : Except String (List Doc) :=
  match json_data with
  | .obj kvs =>
    match kvs.lookup "data" with
    | some v => iterElems v
    | none => .ok []
  | .arr xs => .ok xs
  | _ => .ok []

/-- Python `d[k] = v` on an insertion-ordered dictionary: overwrite in
place when the key is present, append otherwise. -/
def dictInsert (d : List (Doc × Record)) (k : Doc) (v : Record) : List (Doc × Record) :=
  if d.any fun p => p.1 == k then d.map fun p => if p.1 == k then (k, v) else p
  else d ++ [(k, v)]

/-- One step of the indexing loop (lines 41-43): a dict element with a
`branch_code` field is inserted under that field's value — raising
`TypeError` when the value is an unhashable container — and any other
element is silently skipped. -/
def indexStep (centers_dict : List (Doc × Record)) (center : Doc) :
    Except String (List (Doc × Record)) :=
  match center with
  | .obj kvs =>
    match kvs.lookup "branch_code" with
    | some bc =>
      if isHashable bc then .ok (dictInsert centers_dict bc kvs)
      else .error "TypeError: unhashable type used as dict key"
    | none => .ok centers_dict
  | _ => .ok centers_dict

/-- Indexer `extract_centers_by_branch_code` (lines 29-45), including
the failure cases the Python code actually has. -/
def extract_centers_by_branch_code (json_data : Doc) :
    Except String (List (Doc × Record)) :=
  match centersList json_data with
  | .error e => .error e
  | .ok centers => centers.foldlM indexStep []

/-- Benign element for the indexing loop: either not a keyed dict (then
it is skipped) or its key value is hashable. -/
def goodCenter : Doc → Bool
  | .obj kvs =>
    match kvs.lookup "branch_code" with
    | some bc => isHashable bc
    | none => true
  | _ => true

theorem foldlM_indexStep_ok (cs : List Doc) (h : ∀ c ∈ cs, goodCenter c = true) :
    ∀ acc, ∃ rs, cs.foldlM indexStep acc = .ok rs := by
  induction cs with
  | nil => exact fun acc => ⟨acc, rfl⟩
  | cons c cs ih =>
    intro acc
    have hc := h c (List.mem_cons_self _ _)
    have hstep : ∃ acc2, indexStep acc c = .ok acc2 := by
      cases c with
      | obj kvs =>
        cases hl : kvs.lookup "branch_code" with
        | some bc =>
          simp only [goodCenter, hl] at hc
          exact ⟨dictInsert acc bc kvs, by simp [indexStep, hl, hc]⟩
        | none => exact ⟨acc, by simp [indexStep, hl]⟩
      | arr a => exact ⟨acc, rfl⟩
      | str s => exact ⟨acc, rfl⟩
      | num n => exact ⟨acc, rfl⟩
      | bool b => exact ⟨acc, rfl⟩
      | null => exact ⟨acc, rfl⟩
    obtain ⟨acc2, hacc2⟩ := hstep
    rw [List.foldlM_cons, hacc2]
    simpa using ih (fun c' hc' => h c' (List.mem_cons_of_mem _ hc')) acc2

theorem foldlM_indexStep_skip (cs : List Doc)
    (h : ∀ c ∈ cs, ∀ kvs : List (String × Doc), c ≠ Doc.obj kvs) :
    ∀ acc, cs.foldlM indexStep acc = .ok acc := by
  induction cs with
  | nil => exact fun acc => rfl
  | cons c cs ih =>
    intro acc
    have hstep : indexStep acc c = .ok acc := by
      cases c with
      | obj kvs => exact absurd rfl (h _ (List.mem_cons_self _ _) kvs)
      | arr a => rfl
      | str s => rfl
      | num n => rfl
      | bool b => rfl
      | null => rfl
    rw [List.foldlM_cons, hstep]
    simpa using ih (fun c' hc' kvs => h c' (List.mem_cons_of_mem _ hc') kvs) acc

/-- Counterexample to C8 as stated: on the Document `{"data": 5}` the
indexer does not succeed — Python raises `TypeError` at the loop
`for center in centers` because an integer is not iterable. -/
theorem indexer_not_total_counterexample :
    extract_centers_by_branch_code (.obj [("data", .num 5)])
      = .error "TypeError: object is not iterable" := rfl

/-- C8 (amended).  The canonicalizer and the differ are total functions
of their inputs; the indexer succeeds on every Document whose
record-sequence source is iterable and whose keyed dict elements carry
hashable key values, silently skipping non-conforming elements — in
particular, an object whose `data` field holds a (non-sequence) string
yields the empty RecordSet. -/
theorem indexer_amended_totality :
    (∀ (json_data : Doc) (cs : List Doc), centersList json_data = .ok cs →
      (∀ c ∈ cs, goodCenter c = true) →
      ∃ rs, extract_centers_by_branch_code json_data = .ok rs)
    ∧ (∀ s : String, extract_centers_by_branch_code (.obj [("data", .str s)]) = .ok []) := by
  constructor
  · intro jd cs hcs hgood
    unfold extract_centers_by_branch_code
    rw [hcs]
    exact foldlM_indexStep_ok cs hgood []
  · intro s
    have hcl : centersList (.obj [("data", .str s)])
        = .ok (s.data.map fun c => .str (String.mk [c])) := rfl
    unfold extract_centers_by_branch_code
    rw [hcl]
    apply foldlM_indexStep_skip
    intro c hc kvs
    obtain ⟨ch, hch, rfl⟩ := List.mem_map.mp hc
    exact fun h => Doc.noConfusion h

/-- Witness for C8's amended statement at concrete inputs: a `data`
list containing one keyed record and one non-dict element indexes
successfully, and a string-valued `data` field yields the empty
RecordSet. -/
theorem indexer_amended_totality_witness :
    (∃ rs, extract_centers_by_branch_code
      (.obj [("data", .arr [.obj [("branch_code", .str "X1")], .num 7])]) = .ok rs)
    ∧ extract_centers_by_branch_code (.obj [("data", .str "ab")]) = .ok [] :=
  ⟨indexer_amended_totality.1 _ [.obj [("branch_code", .str "X1")], .num 7] rfl
      (by decide),
   indexer_amended_totality.2 "ab"⟩
